import Mathlib

/-!
Shallow embedding of `boostedblob/boost.py`: the `BoostExecutor` scheduling
runtime, its `Boostable` mapping stages (ordered and unordered), and the
`EagerAsyncIterator` adapter.  Machine integers do not occur; the Python
values modelled here are semaphore counters (`Nat`), deques (`List`),
futures/tasks (inductives recording completion state), and control flow
(`Option`/`Except`/sum-like inductives).

Timeouts (`MIN_TIMEOUT = 0.01 s`, `MAX_TIMEOUT = 0.1 s`) are modelled in
integral milliseconds, so `MIN_TIMEOUT = 10` and `MAX_TIMEOUT = 100`.
-/

namespace BoostedBlob

/-! ## Executor state and the capacity-token transition system

`BoostExecutor.__init__` (boost.py lines 56-79) creates
`asyncio.Semaphore(concurrency - 1)`, an empty deque of boostables, no
waiter and `shutdown = False`.  The dynamic behaviour relevant to the
capacity token is:
* `Boostable.__init__`'s `wrapper` (lines 230-232): every spawned task runs
  `async with semaphore: await func(arg)` — it acquires one permit, is then
  "running `f`", and releases the permit when `f` finishes;
* `Boostable.__aiter__` (lines 290-301): the consumer iterator releases one
  permit on entry (the foreground donation) and acquires one permit back in
  its `finally` block;
* everything else (registering boostables, resolving the waiter, setting
  `shutdown`) leaves the semaphore, the set of running tasks and the
  donation flag alone.
-/

/-- State of one `BoostExecutor` together with the tasks its boostables have
in flight.  `semFree` is the number of currently available semaphore
permits, `running` the number of tasks currently executing `func` inside
`wrapper`, `donated` whether a consumer iterator currently holds out its
foreground donation. -/
structure ExecState where
  semFree : Nat
  running : Nat
  donated : Bool
  boostables : List Nat
  waiter : Option Unit
  shutdown : Bool
  deriving Repr, DecidableEq

/-- `BoostExecutor.__init__(concurrency)`: `assert concurrency > 0` (modelled
as returning `none` on assertion failure), then
`self.semaphore = asyncio.Semaphore(concurrency - 1)`,
`self.boostables = Deque()`, `self.waiter = None`, `self.shutdown = False`. -/
def BoostExecutor.init (concurrency : Nat) : Option ExecState :=
  if 0 < concurrency then
    some { semFree := concurrency - 1, running := 0, donated := false,
           boostables := [], waiter := none, shutdown := false }
  else
    none

/-- The initial state for concurrency `c` (the successful branch of
`BoostExecutor.init`). -/
def initState (c : Nat) : ExecState :=
  { semFree := c - 1, running := 0, donated := false,
    boostables := [], waiter := none, shutdown := false }

/-- One atomic step of the executor runtime, as the event loop schedules it.

* `startIter`: `Boostable.__aiter__`'s iterator body begins:
  `self.semaphore.release()` — one permit appears.
* `endIter`: the iterator's `finally: await self.semaphore.acquire()`
  completes — one permit disappears.  (It only completes when a permit is
  available.)
* `taskStart`: a spawned task's `wrapper` finishes `semaphore.acquire()`
  (entering `async with semaphore`) and starts executing `func`.
* `taskFinish`: `await func(arg)` returns and the `async with` block exits,
  releasing the permit.
* `env`: any other executor activity (`map_ordered`/`map_unordered`
  registration, waiter resolution, shutdown flag) — it does not touch the
  semaphore, the running count or the donation. -/
inductive Step : ExecState → ExecState → Prop where
  | startIter (s : ExecState) : s.donated = false →
      Step s { s with donated := true, semFree := s.semFree + 1 }
  | endIter (s : ExecState) : s.donated = true → 1 ≤ s.semFree →
      Step s { s with donated := false, semFree := s.semFree - 1 }
  | taskStart (s : ExecState) : 1 ≤ s.semFree →
      Step s { s with semFree := s.semFree - 1, running := s.running + 1 }
  | taskFinish (s : ExecState) : 1 ≤ s.running →
      Step s { s with running := s.running - 1, semFree := s.semFree + 1 }
  | env (s : ExecState) (bs : List Nat) (w : Option Unit) (sd : Bool) :
      Step s { s with boostables := bs, waiter := w, shutdown := sd }

/-- Reachability from the freshly constructed executor with concurrency `c`. -/
def Reach (c : Nat) (s : ExecState) : Prop :=
  Relation.ReflTransGen Step (initState c) s

/-- `1` while the foreground donation is out, else `0`. -/
def donatedCount (s : ExecState) : Nat :=
  if s.donated then 1 else 0

/-- One step preserves the capacity ledger. -/
theorem step_sem_conservation (s s' : ExecState) (h : Step s s') (k : Nat)
    (hs : s.semFree + s.running = k + donatedCount s) :
    s'.semFree + s'.running = k + donatedCount s' := by
  cases h with
  | startIter h1 => simp [donatedCount, h1] at hs ⊢; omega
  | endIter h1 h2 => simp [donatedCount, h1] at hs ⊢; omega
  | taskStart h1 =>
    rcases hd : s.donated <;> simp [donatedCount, hd] at hs ⊢ <;> omega
  | taskFinish h1 =>
    rcases hd : s.donated <;> simp [donatedCount, hd] at hs ⊢ <;> omega
  | env bs w sd => simpa [donatedCount] using hs

/-- Conservation of capacity: available permits plus running tasks always
equal the initial `c - 1` permits plus the foreground donation. -/
theorem reach_sem_conservation (c : Nat) (s : ExecState) (h : Reach c s) :
    s.semFree + s.running = c - 1 + donatedCount s := by
  induction h with
  | refl => simp [initState, donatedCount]
  | tail _ hstep ih => exact step_sem_conservation _ _ hstep _ ih

/-- C1: for every executor constructed with concurrency `c ≥ 1`, in every
reachable state the number of tasks currently executing `func` is at most
`c`: each such task holds one permit of the capacity token, which never has
more than `c` permits outstanding (`c - 1` background plus the one
foreground donation). -/
theorem bounded_in_flight (c : Nat) (s : ExecState) (hc : 1 ≤ c)
    (h : Reach c s) : s.running ≤ c := by
  have hinv := reach_sem_conservation c s h
  unfold donatedCount at hinv
  split at hinv <;> omega

theorem bounded_in_flight_witness :
    (⟨0, 1, true, [], none, false⟩ : ExecState).running ≤ 1 :=
  bounded_in_flight 1 ⟨0, 1, true, [], none, false⟩ (by decide)
    (Relation.ReflTransGen.tail
      (Relation.ReflTransGen.single
        (show Step (initState 1) ⟨1, 0, true, [], none, false⟩ from
          Step.startIter _ rfl))
      (show Step ⟨1, 0, true, [], none, false⟩ ⟨0, 1, true, [], none, false⟩ from
        Step.taskStart _ (by decide)))

/-- C7: constructing an executor with concurrency `c ≥ 1` succeeds and
produces the capacity token at value exactly `c - 1` (which differs from
`c`), an empty active deque, no pending wakeup signal, and `shutdown`
unset. -/
theorem boostExecutor_init_spec (c : Nat) (hc : 1 ≤ c) :
    BoostExecutor.init c =
      some { semFree := c - 1, running := 0, donated := false,
             boostables := [], waiter := none, shutdown := false } ∧
    c - 1 ≠ c := by
  have h0 : 0 < c := hc
  constructor
  · simp [BoostExecutor.init, h0]
  · omega

theorem boostExecutor_init_spec_witness :
    BoostExecutor.init 2 =
      some { semFree := 1, running := 0, donated := false,
             boostables := [], waiter := none, shutdown := false } ∧
    2 - 1 ≠ 2 :=
  boostExecutor_init_spec 2 (by decide)

/-- C9: the consumer iteration protocol releases exactly one permit on entry
(`startIter` adds one) and acquires exactly one permit back on exit
(`endIter` removes one), so any execution fragment across which the
donation flag and the number of running tasks return to their previous
values — in particular a completed iteration, whether it ended by upstream
exhaustion or early termination — leaves the capacity token's permit count
unchanged. -/
theorem iteration_net_zero (c : Nat) (s s' : ExecState) (h : Reach c s)
    (h' : Relation.ReflTransGen Step s s') (hd : s'.donated = s.donated)
    (hr : s'.running = s.running) : s'.semFree = s.semFree := by
  have h1 := reach_sem_conservation c s h
  have h2 := reach_sem_conservation c s' (Relation.ReflTransGen.trans h h')
  have h3 : donatedCount s' = donatedCount s := by
    simp [donatedCount, hd]
  omega

theorem iteration_net_zero_witness :
    (⟨0, 0, false, [], none, false⟩ : ExecState).semFree = (initState 1).semFree :=
  iteration_net_zero 1 (initState 1) ⟨0, 0, false, [], none, false⟩
    Relation.ReflTransGen.refl
    (Relation.ReflTransGen.tail
      (Relation.ReflTransGen.tail
        (Relation.ReflTransGen.tail
          (Relation.ReflTransGen.single
            (show Step (initState 1) ⟨1, 0, true, [], none, false⟩ from
              Step.startIter _ rfl))
          (show Step ⟨1, 0, true, [], none, false⟩ ⟨0, 1, true, [], none, false⟩ from
            Step.taskStart _ (by decide)))
        (show Step ⟨0, 1, true, [], none, false⟩ ⟨1, 0, true, [], none, false⟩ from
          Step.taskFinish _ (by decide)))
      (show Step ⟨1, 0, true, [], none, false⟩ ⟨0, 0, false, [], none, false⟩ from
        Step.endIter _ rfl (by decide)))
    rfl rfl

/-! ## OrderedBoostable: order-preserving emission

`OrderedBoostable` (boost.py lines 304-338) keeps `self.buffer`, a FIFO
deque of asyncio tasks.  `enqueue` (lines 318-321) pulls the next upstream
element and appends `create_task(self.func(arg))` to the back.  `dequeue`
(lines 323-327) pops the front task and returns its result, but only when
the front task is done.  `blocking_dequeue` (lines 329-338) enqueues when
the buffer is empty and otherwise waits for the front task; every value the
consumer iterator receives comes out of `dequeue`.  A task is modelled as
`(result, done)`: its eventual result `func arg` is determined at creation
(`func` is pure in the model), `done` flips when the event loop finishes
the task — at any moment, in any order. -/

/-- A snapshot of one `OrderedBoostable` over a list source: `pending` is
the part of the upstream iterator not yet consumed, `buffer` is the FIFO of
spawned tasks as `(result, done)` pairs, `emitted` the results the consumer
iterator has received so far, in order. -/
structure OrdState (α : Type) where
  pending : List α
  buffer : List (α × Bool)
  emitted : List α
  deriving Repr, DecidableEq

/-- Events of an `OrderedBoostable` with mapping function `f`:

* `enqueue`: `provide_boost` or `blocking_dequeue` pulls the next upstream
  element `x` and appends the new (not yet done) task for `f x` to the back
  of `self.buffer`;
* `complete`: the event loop finishes the task at position `i` of the
  buffer — any position, modelling every relative completion order;
* `dequeue`: `dequeue` observes that the front task is done, pops it, and
  its result reaches the consumer. -/
inductive OrdStep {α : Type} (f : α → α) : OrdState α → OrdState α → Prop where
  | enqueue (s : OrdState α) (x : α) (rest : List α) :
      s.pending = x :: rest →
      OrdStep f s ⟨rest, s.buffer ++ [(f x, false)], s.emitted⟩
  | complete (s : OrdState α) (i : Nat) (v : α) :
      s.buffer.get? i = some (v, false) →
      OrdStep f s { s with buffer := s.buffer.set i (v, true) }
  | dequeue (s : OrdState α) (v : α) (rest : List (α × Bool)) :
      s.buffer = (v, true) :: rest →
      OrdStep f s { s with buffer := rest, emitted := s.emitted ++ [v] }

/-- Reachability of an `OrderedBoostable` snapshot from the freshly
registered stage over source `xs`. -/
def OrdReach {α : Type} (f : α → α) (xs : List α) (s : OrdState α) : Prop :=
  Relation.ReflTransGen (OrdStep f) ⟨xs, [], []⟩ s

theorem set_of_get?_eq {α : Type} (l : List α) (i : Nat) (v : α)
    (h : l.get? i = some v) : l.set i v = l := by
  have h' : l[i]? = some v := by rw [← List.get?_eq_getElem?]; exact h
  apply List.ext_getElem?
  intro j
  rw [List.getElem?_set]
  split
  · rename_i hij
    subst hij
    simp [(List.getElem?_eq_some.mp h').1, h']
  · rfl

/-- One `OrdStep` preserves the emission ledger: what was emitted, plus the
results of buffered tasks front-to-back, plus `f` of the not yet consumed
upstream elements, is always `map f` of the original source. -/
theorem ordStep_ledger {α : Type} (f : α → α) (s s' : OrdState α)
    (h : OrdStep f s s') (xs : List α)
    (hs : s.emitted ++ s.buffer.map Prod.fst ++ s.pending.map f = xs.map f) :
    s'.emitted ++ s'.buffer.map Prod.fst ++ s'.pending.map f = xs.map f := by
  cases h with
  | enqueue x rest hp =>
    rw [hp] at hs
    simpa using hs
  | complete i v hv =>
    have hmap : (s.buffer.set i (v, true)).map Prod.fst = s.buffer.map Prod.fst := by
      rw [List.map_set]
      apply set_of_get?_eq
      have hv' : s.buffer[i]? = some (v, false) := by
        rw [← List.get?_eq_getElem?]; exact hv
      rw [List.get?_eq_getElem?, List.getElem?_map, hv']
      rfl
    simpa [hmap] using hs
  | dequeue v rest hb =>
    rw [hb] at hs
    simpa using hs

/-- Ledger invariant for every reachable snapshot. -/
theorem ordReach_ledger {α : Type} (f : α → α) (xs : List α) (s : OrdState α)
    (h : OrdReach f xs s) :
    s.emitted ++ s.buffer.map Prod.fst ++ s.pending.map f = xs.map f := by
  induction h with
  | refl => simp
  | tail _ hstep ih => exact ordStep_ledger f _ _ hstep xs ih

/-- C2: an `OrderedBoostable` over an upstream producing `x₀, x₁, …` emits
exactly `f x₀, f x₁, …` in source order: any reachable snapshot that has
consumed its whole upstream and drained its buffer — i.e. any completed
iteration, under every relative completion order of the tasks — has emitted
precisely `map f xs`. -/
theorem ordered_emission {α : Type} (f : α → α) (xs : List α) (s : OrdState α)
    (h : OrdReach f xs s) (hp : s.pending = []) (hb : s.buffer = []) :
    s.emitted = xs.map f := by
  have := ordReach_ledger f xs s h
  rw [hp, hb] at this
  simpa using this

theorem ordered_emission_witness :
    ([2, 3] : List Nat) = [1, 2].map (fun x => x + 1) :=
  ordered_emission (fun x => x + 1) [1, 2] ⟨[], [], [2, 3]⟩
    (Relation.ReflTransGen.tail
      (Relation.ReflTransGen.tail
        (Relation.ReflTransGen.tail
          (Relation.ReflTransGen.tail
            (Relation.ReflTransGen.tail
              (Relation.ReflTransGen.single
                (show OrdStep (fun x => x + 1) ⟨[1, 2], [], []⟩
                    ⟨[2], [(2, false)], []⟩ from
                  OrdStep.enqueue _ _ _ rfl))
              (show OrdStep (fun x => x + 1) ⟨[2], [(2, false)], []⟩
                  ⟨[], [(2, false), (3, false)], []⟩ from
                OrdStep.enqueue _ _ _ rfl))
            (show OrdStep (fun x => x + 1) ⟨[], [(2, false), (3, false)], []⟩
                ⟨[], [(2, false), (3, true)], []⟩ from
              OrdStep.complete _ 1 3 rfl))
          (show OrdStep (fun x => x + 1) ⟨[], [(2, false), (3, true)], []⟩
              ⟨[], [(2, true), (3, true)], []⟩ from
            OrdStep.complete _ 0 2 rfl))
        (show OrdStep (fun x => x + 1) ⟨[], [(2, true), (3, true)], []⟩
            ⟨[], [(3, true)], [2]⟩ from
          OrdStep.dequeue _ 2 _ rfl))
      (show OrdStep (fun x => x + 1) ⟨[], [(3, true)], [2]⟩
          ⟨[], [], [2, 3]⟩ from
        OrdStep.dequeue _ 3 _ rfl))
    rfl rfl

/-! ## EagerAsyncIterator

`EagerAsyncIterator` (boost.py lines 397-432) holds `self.next_task`, an
asyncio task running `eagerify(it)`, which awaits the source's next element
and, on success, spawns its own successor before returning
`(val, next_task)`; when the source is finished the task completes with the
`StopAsyncIteration` exception.  A completed prefetch therefore already
determines the entire remainder of the stream, which is what the inductive
`EagerTask` records: `pending` (the task is not yet done), `done v next`
(done, holding a value and the successor prefetch), `stopped` (done,
holding `StopAsyncIteration`). -/

/-- Completion state of the `eagerify` prefetch task. -/
inductive EagerTask (α : Type) where
  | pending : EagerTask α
  | done : α → EagerTask α → EagerTask α
  | stopped : EagerTask α
  deriving Repr, DecidableEq

/-- The adapter object: just its `next_task` field. -/
structure EagerAsyncIterator (α : Type) where
  next_task : EagerTask α
  deriving Repr, DecidableEq

/-- Result type of `EagerAsyncIterator.dequeue` (boost.py lines 415-422):
`Union[NotReady, Exhausted, T]`. -/
inductive DequeueResult (α : Type) where
  | notReady : DequeueResult α
  | exhausted : DequeueResult α
  | value : α → DequeueResult α
  deriving Repr, DecidableEq

/-- `next_task.done()`. -/
def EagerTask.isDone {α : Type} : EagerTask α → Bool
  | .pending => false
  | .done _ _ => true
  | .stopped => true

/-- `EagerAsyncIterator.dequeue` (boost.py lines 415-422):
`if not self.next_task.done(): return NotReady()`; then
`ret, self.next_task = self.next_task.result(); return ret`, except that a
`StopAsyncIteration` raised by `result()` aborts the tuple assignment
(leaving `self.next_task` untouched) and yields `return Exhausted()`. -/
def EagerAsyncIterator.dequeue {α : Type} (it : EagerAsyncIterator α) :
    DequeueResult α × EagerAsyncIterator α :=
  match it.next_task with
  | .pending => (.notReady, it)
  | .done v next => (.value v, ⟨next⟩)
  | .stopped => (.exhausted, it)

/-- C5: the eager adapter's non-blocking dequeue returns `NotReady` (with no
state change) while the current prefetch is incomplete; when the prefetch
completed with a value it returns that value and swaps in the successor
prefetch; when the prefetch completed with end-of-source it returns
`Exhausted`. -/
theorem eager_dequeue_spec {α : Type} (it : EagerAsyncIterator α) :
    (it.next_task.isDone = false → it.dequeue = (.notReady, it)) ∧
    (∀ v next, it.next_task = .done v next → it.dequeue = (.value v, ⟨next⟩)) ∧
    (it.next_task = .stopped → it.dequeue = (.exhausted, it)) := by
  obtain ⟨t⟩ := it
  cases t <;>
    simp [EagerAsyncIterator.dequeue, EagerTask.isDone]

theorem eager_dequeue_spec_witness :
    (⟨EagerTask.pending⟩ : EagerAsyncIterator Nat).dequeue =
      (DequeueResult.notReady, ⟨EagerTask.pending⟩) ∧
    (⟨EagerTask.done 5 EagerTask.stopped⟩ : EagerAsyncIterator Nat).dequeue =
      (DequeueResult.value 5, ⟨EagerTask.stopped⟩) ∧
    (⟨EagerTask.stopped⟩ : EagerAsyncIterator Nat).dequeue =
      (DequeueResult.exhausted, ⟨EagerTask.stopped⟩) :=
  ⟨(eager_dequeue_spec ⟨EagerTask.pending⟩).1 rfl,
   (eager_dequeue_spec ⟨EagerTask.done 5 EagerTask.stopped⟩).2.1 5 EagerTask.stopped rfl,
   (eager_dequeue_spec ⟨EagerTask.stopped⟩).2.2 rfl⟩

/-- C10: once `dequeue` has returned `Exhausted`, the adapter state is
unchanged (the completed end-of-source prefetch was not replaced), and every
subsequent `dequeue` again returns `Exhausted` with the state unchanged. -/
theorem eager_exhausted_idempotent {α : Type} (it it' : EagerAsyncIterator α)
    (h : it.dequeue = (.exhausted, it')) :
    it' = it ∧ it'.dequeue = (.exhausted, it') := by
  obtain ⟨t⟩ := it
  cases t with
  | pending => simp [EagerAsyncIterator.dequeue] at h
  | done v next => simp [EagerAsyncIterator.dequeue] at h
  | stopped =>
    simp [EagerAsyncIterator.dequeue] at h
    simp [← h, EagerAsyncIterator.dequeue]

theorem eager_exhausted_idempotent_witness :
    (⟨EagerTask.stopped⟩ : EagerAsyncIterator Nat) = ⟨EagerTask.stopped⟩ ∧
    (⟨EagerTask.stopped⟩ : EagerAsyncIterator Nat).dequeue =
      (DequeueResult.exhausted, ⟨EagerTask.stopped⟩) :=
  eager_exhausted_idempotent ⟨EagerTask.stopped⟩ ⟨EagerTask.stopped⟩ rfl

/-! ## The scheduling loop's idle step

`BoostExecutor.run` (boost.py lines 119-181) idles at lines 160-172:
```
self.waiter = loop.create_future()
try:
    await asyncio.wait_for(self.waiter, timeout if self.boostables else None)
    timeout = min(MAX_TIMEOUT, timeout * 2) if self.boostables else MIN_TIMEOUT
except asyncio.TimeoutError:
    pass
self.waiter = None
```
`MIN_TIMEOUT = 0.01` and `MAX_TIMEOUT = 0.1` seconds, modelled here as 10
and 100 milliseconds.  `asyncio.wait_for(fut, None)` waits indefinitely;
with a bound it raises `TimeoutError` on expiry, in which case the
assignment to `timeout` on the line after the `await` is skipped.  The
assignment runs exactly when the waiter was signalled first. -/

/-- `MIN_TIMEOUT` in milliseconds. -/
def MIN_TIMEOUT : Nat := 10

/-- `MAX_TIMEOUT` in milliseconds. -/
def MAX_TIMEOUT : Nat := 100

/-- How long the idle step waits: `timeout if self.boostables else None`
(`none` = indefinitely). -/
def idleWaitBound (hasBoostables : Bool) (timeout : Nat) : Option Nat :=
  if hasBoostables then some timeout else none

/-- The value of `timeout` after the idle step, given whether the deque was
non-empty and whether the signal arrived before expiry (`signalled = false`
is the `TimeoutError` path, where the update is skipped). -/
def idleNewTimeout (hasBoostables signalled : Bool) (timeout : Nat) : Nat :=
  if signalled then
    if hasBoostables then min MAX_TIMEOUT (timeout * 2) else MIN_TIMEOUT
  else
    timeout

/-- C4 counterexample: with a non-empty active deque and `timeout = 10` ms,
expiry of the wait (no signal) leaves `timeout` at 10 ms — it is *not*
doubled to 20 ms as the claim states, because the `TimeoutError` branch
skips the update. -/
theorem idle_timeout_cex :
    idleWaitBound true 10 = some 10 ∧
    idleNewTimeout true false 10 = 10 ∧
    idleNewTimeout true false 10 ≠ min MAX_TIMEOUT (10 * 2) := by
  decide

/-- C4 amended: with a non-empty active deque the loop waits at most
`timeout` for the wakeup signal; if the signal arrives before expiry,
`timeout` is doubled, capped at `MAX_TIMEOUT = 100` ms, while on expiry it
is left unchanged.  With an empty active deque the loop waits indefinitely
for the signal and on wake resets `timeout` to `MIN_TIMEOUT = 10` ms. -/
theorem idle_timeout_spec (t : Nat) :
    idleWaitBound true t = some t ∧
    idleWaitBound false t = none ∧
    idleNewTimeout true true t = min MAX_TIMEOUT (t * 2) ∧
    idleNewTimeout true false t = t ∧
    idleNewTimeout false true t = MIN_TIMEOUT := by
  simp [idleWaitBound, idleNewTimeout]

/-! ## Boostable stages, composition and `provide_boost`

`Boostable` (boost.py lines 192-301) applies `self.func` to each element
dequeued from `self.iterable`.  An asyncio task is modelled as its eventual
result (`func` is pure, so the result is fixed at `create_task` time)
together with its completion flag.  A stage records its mapping function,
whether it is an `OrderedBoostable` (FIFO `dequeue`, lines 323-327) or an
`UnorderedBoostable` (scan for any done task, lines 366-377; `provide_boost`
calls `dequeue()` without a hint), and its task buffer.  Since every
`Boostable`'s `iterable` is exclusively owned, a composition is a linear
chain: the downstream-most stage first, then its upstream stages, ending in
the base underlying — a plain iterator or an `EagerAsyncIterator`. -/

/-- An asyncio task spawned by `Boostable.enqueue`: eventual result and
completion flag. -/
structure AsyncTask (α : Type) where
  res : α
  done : Bool
  deriving Repr, DecidableEq

/-- One `Boostable` stage.  `func` is the stage's mapping function (the
`wrapper` closure of lines 230-232; its semaphore interaction is the
`taskStart`/`taskFinish` steps of `ExecState`). -/
structure Stage (α : Type) where
  func : α → α
  ordered : Bool
  buffer : List (AsyncTask α)

/-- `Boostable.dequeue` (`Union[NotReady, R]`, `none` = `NotReady`):
ordered — pop the front task iff it is done (lines 323-327); unordered —
`next(t for t in self.buffer if t.done())`, removing it (lines 366-377 with
`hint=None`, which is how `provide_boost` calls it). -/
def Stage.dequeue {α : Type} (s : Stage α) : Option α × Stage α :=
  if s.ordered then
    match s.buffer with
    | [] => (none, s)
    | t :: rest => if t.done then (some t.res, { s with buffer := rest }) else (none, s)
  else
    match s.buffer.find? (fun t => t.done) with
    | some t => (some t.res, { s with buffer := s.buffer.eraseP (fun t => t.done) })
    | none => (none, s)

/-- `Boostable.enqueue` (lines 318-321 and 360-364): spawn
`create_task(self.func(arg))` and put it in the buffer; returns the task. -/
def Stage.enqueue {α : Type} (s : Stage α) (arg : α) : Stage α × AsyncTask α :=
  ({ s with buffer := s.buffer ++ [⟨s.func arg, false⟩] }, ⟨s.func arg, false⟩)

/-- The base of a chain of boostables: `Iterator` or `EagerAsyncIterator`. -/
inductive UBase (α : Type) where
  | iter : List α → UBase α
  | eager : EagerAsyncIterator α → UBase α

/-- Return type of `provide_boost`:
`Union[NotReady, Exhausted, asyncio.Task]`. -/
inductive PBOutcome (α : Type) where
  | notReady : PBOutcome α
  | exhausted : PBOutcome α
  | started : AsyncTask α → PBOutcome α

/-- `Boostable.provide_boost` (boost.py lines 238-268) along an upstream
chain: if `self.iterable` is a `Boostable`, call its (non-blocking)
`dequeue`; on `NotReady` forward the boost — `return
self.iterable.provide_boost()`; on a value, enqueue.  If it is an
`EagerAsyncIterator`, call its `dequeue` and propagate
`NotReady`/`Exhausted`, else enqueue.  If it is an `Iterator`, `next(...)`,
returning `Exhausted` on `StopIteration`, else enqueue. -/
def provideBoostAux {α : Type} :
    Stage α → List (Stage α) → UBase α →
      PBOutcome α × (Stage α × List (Stage α) × UBase α)
  | s, u :: rest, base =>
    match u.dequeue with
    | (none, u') =>
      let r := provideBoostAux u' rest base
      (r.1, (s, r.2.1 :: r.2.2.1, r.2.2.2))
    | (some v, u') =>
      let p := s.enqueue v
      (.started p.2, (p.1, u' :: rest, base))
  | s, [], .iter [] => (.exhausted, (s, [], .iter []))
  | s, [], .iter (x :: xs) =>
    let p := s.enqueue x
    (.started p.2, (p.1, [], .iter xs))
  | s, [], .eager e =>
    match e.dequeue with
    | (.notReady, e') => (.notReady, (s, [], .eager e'))
    | (.exhausted, e') => (.exhausted, (s, [], .eager e'))
    | (.value v, e') =>
      let p := s.enqueue v
      (.started p.2, (p.1, [], .eager e'))

/-- A composed pipeline: the downstream stage `top`, its upstream boostable
stages `ups` (outermost first), and the base underlying. -/
structure Chain (α : Type) where
  top : Stage α
  ups : List (Stage α)
  base : UBase α

/-- `provide_boost` on the downstream-most boostable of a chain. -/
def Chain.provide_boost {α : Type} (c : Chain α) : PBOutcome α × Chain α :=
  let r := provideBoostAux c.top c.ups c.base
  (r.1, ⟨r.2.1, r.2.2.1, r.2.2.2⟩)

/-- A `NotReady` dequeue does not mutate the stage. -/
theorem Stage.dequeue_none_eq {α : Type} (u : Stage α) (h : u.dequeue.1 = none) :
    u.dequeue.2 = u := by
  unfold Stage.dequeue at h ⊢
  split at h <;> [skip; skip] <;> split at h <;> simp_all
  split at h <;> simp_all

/-- C3: when a boostable's upstream is itself a boostable, `provide_boost`
first calls the upstream's non-blocking `dequeue`.  If that is `NotReady`
(which leaves the upstream unchanged), the boost is forwarded: the outcome
is exactly the upstream's `provide_boost` outcome, the downstream stage is
untouched, and the upstream chain is whatever the upstream's
`provide_boost` made of it.  If it is a value `v`, a new task for `func v`
is enqueued on the downstream stage and returned as `Started`. -/
theorem provide_boost_forwarding {α : Type} (c : Chain α) (u : Stage α)
    (rest : List (Stage α)) (h : c.ups = u :: rest) :
    (u.dequeue.1 = none →
      (c.provide_boost.1 = (Chain.provide_boost ⟨u, rest, c.base⟩).1 ∧
       c.provide_boost.2.top = c.top ∧
       c.provide_boost.2.ups =
         (Chain.provide_boost ⟨u, rest, c.base⟩).2.top ::
           (Chain.provide_boost ⟨u, rest, c.base⟩).2.ups ∧
       c.provide_boost.2.base = (Chain.provide_boost ⟨u, rest, c.base⟩).2.base)) ∧
    (∀ v u', u.dequeue = (some v, u') →
      c.provide_boost =
        (.started ⟨c.top.func v, false⟩,
         ⟨{ c.top with buffer := c.top.buffer ++ [⟨c.top.func v, false⟩] },
          u' :: rest, c.base⟩)) := by
  obtain ⟨t, us, b⟩ := c
  subst h
  constructor
  · intro hnone
    have h2 := Stage.dequeue_none_eq u hnone
    have hu : u.dequeue = (none, u) := by
      rw [Prod.ext_iff]; exact ⟨hnone, h2⟩
    simp [Chain.provide_boost, provideBoostAux, hu]
  · intro v u' hv
    simp [Chain.provide_boost, provideBoostAux, hv, Stage.enqueue]

theorem provide_boost_forwarding_witness :
    ((Chain.mk ⟨fun x => x + 1, true, []⟩ [⟨fun x => x * 2, true, [⟨6, true⟩]⟩]
        (UBase.iter [9]) : Chain Nat).provide_boost =
      (.started ⟨7, false⟩,
       ⟨⟨fun x => x + 1, true, [⟨7, false⟩]⟩, [⟨fun x => x * 2, true, []⟩],
        UBase.iter [9]⟩)) :=
  (provide_boost_forwarding
      ⟨⟨fun x => x + 1, true, []⟩, [⟨fun x => x * 2, true, [⟨6, true⟩]⟩],
        UBase.iter [9]⟩
      ⟨fun x => x * 2, true, [⟨6, true⟩]⟩ [] rfl).2 6
    ⟨fun x => x * 2, true, []⟩ (by simp [Stage.dequeue])

/-! ## `Boostable.__init__` input checking

`Boostable.__init__` (boost.py lines 219-236) first checks
`isinstance(iterable, (Iterator, Boostable, EagerAsyncIterator))` and raises
`ValueError` otherwise — before the `wrapper` closure is created, before
any field is assigned, and without ever spawning a task (the constructor
spawns none in any case; the fresh stage's buffer is empty). -/

/-- What a caller may pass as `iterable`: the three supported kinds, or any
other Python object. -/
inductive PyUnderlying (α : Type) where
  | iterator : List α → PyUnderlying α
  | boostable : Chain α → PyUnderlying α
  | eagerAsync : EagerAsyncIterator α → PyUnderlying α
  | otherObject : PyUnderlying α

/-- `Boostable.__init__(func, iterable, semaphore)`: `ValueError` unless
`iterable` is an `Iterator`, `Boostable` or `EagerAsyncIterator`; on
success the stage starts with an empty task buffer. -/
def Boostable.init {α : Type} (func : α → α) (ordered : Bool)
    (iterable : PyUnderlying α) : Except String (Stage α × PyUnderlying α) :=
  match iterable with
  | .otherObject =>
    .error "Underlying iterable must be an Iterator, Boostable or EagerAsyncIterator"
  | u => .ok (⟨func, ordered, []⟩, u)

/-- C8: constructing a boostable over an upstream that is not a synchronous
iterator, a boostable or an eager adapter fails synchronously with
`ValueError`, producing no stage (hence no task and no state change);
construction over each of the three supported kinds succeeds, with an empty
task buffer. -/
theorem boostable_init_spec {α : Type} (func : α → α) (ordered : Bool) :
    (∀ xs : List α, Boostable.init func ordered (.iterator xs) =
      .ok (⟨func, ordered, []⟩, .iterator xs)) ∧
    (∀ c : Chain α, Boostable.init func ordered (.boostable c) =
      .ok (⟨func, ordered, []⟩, .boostable c)) ∧
    (∀ e : EagerAsyncIterator α, Boostable.init func ordered (.eagerAsync e) =
      .ok (⟨func, ordered, []⟩, .eagerAsync e)) ∧
    Boostable.init func ordered .otherObject =
      .error "Underlying iterable must be an Iterator, Boostable or EagerAsyncIterator" :=
  ⟨fun _ => rfl, fun _ => rfl, fun _ => rfl, rfl⟩

/-! ## The scheduling loop's round-robin distribution

`BoostExecutor.run`'s inner loop (boost.py lines 132-149):
```
while self.boostables:
    task = self.boostables[0].provide_boost()
    if isinstance(task, NotReady):
        not_ready_boostables.append(self.boostables.popleft())
        continue
    if isinstance(task, Exhausted):
        exhausted_boostables.append(self.boostables.popleft())
        continue
    await asyncio.sleep(0)
    self.boostables.rotate(-1)
    if self.semaphore.locked():
        break
else:
    self.boostables = not_ready_boostables
    not_ready_boostables = Deque()
```
The front boostable is offered a boost; a `NotReady`/`Exhausted` front is
popped to a side list, a boosted front is rotated to the back
(`rotate(-1)`), and the loop breaks early when the semaphore is locked.
Boostables are identified by an element of `β`; the outcome of each
successive `provide_boost` call and the subsequent `semaphore.locked()`
check are an oracle over the offer index, covering every schedule.  `fuel`
bounds how many offers the modelled pass makes (a pass interrupted by fuel
exhaustion only shortens the offer trace).  The model runs a single pass
without interleaved registrations. -/

/-- What one `provide_boost` call produced, and for `started` whether
`semaphore.locked()` held right after. -/
inductive InnerOutcome where
  | notReady : InnerOutcome
  | exhausted : InnerOutcome
  | started : Bool → InnerOutcome
  deriving Repr, DecidableEq

/-- The inner loop's data: the active deque, the two side lists, and the
trace of boostables offered a boost so far (`offers`). -/
structure LoopState (β : Type) where
  active : List β
  notReadyQ : List β
  exhaustedQ : List β
  offers : List β
  deriving Repr, DecidableEq

/-- The inner round-robin loop, `i` the index of the next offer. -/
def innerLoop {β : Type} (oracle : Nat → InnerOutcome) :
    Nat → Nat → LoopState β → LoopState β
  | _, 0, s => s
  | i, fuel + 1, s =>
    match s.active with
    | [] => { s with active := s.notReadyQ, notReadyQ := [] }
    | b :: rest =>
      match oracle i with
      | .notReady =>
        innerLoop oracle (i + 1) fuel
          ⟨rest, s.notReadyQ ++ [b], s.exhaustedQ, s.offers ++ [b]⟩
      | .exhausted =>
        innerLoop oracle (i + 1) fuel
          ⟨rest, s.notReadyQ, s.exhaustedQ ++ [b], s.offers ++ [b]⟩
      | .started locked =>
        if locked then ⟨rest ++ [b], s.notReadyQ, s.exhaustedQ, s.offers ++ [b]⟩
        else
          innerLoop oracle (i + 1) fuel
            ⟨rest ++ [b], s.notReadyQ, s.exhaustedQ, s.offers ++ [b]⟩

theorem take_isPrefix_of_isPrefix_append {α : Type} (u rest : List α) (b : α)
    (h : u <+: rest ++ [b]) : u.take rest.length <+: rest := by
  obtain ⟨w, hw⟩ := h
  have h1 := congrArg (List.take rest.length) hw
  rw [List.take_append_eq_append_take, List.take_left] at h1
  exact ⟨w.take (rest.length - u.length), h1⟩

/-- The offers the inner loop makes extend the trace, and — however the
pass ends — the first `s.active.length` new offers follow the active deque
front to back: each member of the deque is offered once, in deque order,
before anything is offered again. -/
theorem innerLoop_offers_extend {β : Type} (oracle : Nat → InnerOutcome) :
    ∀ (fuel i : Nat) (s : LoopState β),
      ∃ ext, (innerLoop oracle i fuel s).offers = s.offers ++ ext ∧
        ext.take s.active.length <+: s.active := by
  intro fuel
  induction fuel with
  | zero =>
    intro i s
    exact ⟨[], by simp [innerLoop], by simp⟩
  | succ n ih =>
    intro i s
    obtain ⟨act, nrQ, exQ, offs⟩ := s
    cases act with
    | nil => exact ⟨[], by simp [innerLoop], by simp⟩
    | cons b rest =>
      cases ho : oracle i with
      | notReady =>
        obtain ⟨ext, h1, h2⟩ := ih (i + 1) ⟨rest, nrQ ++ [b], exQ, offs ++ [b]⟩
        refine ⟨b :: ext, ?_, ?_⟩
        · have he : innerLoop oracle i (n + 1) ⟨b :: rest, nrQ, exQ, offs⟩ =
              innerLoop oracle (i + 1) n ⟨rest, nrQ ++ [b], exQ, offs ++ [b]⟩ := by
            simp [innerLoop, ho]
          rw [he, h1]
          simp
        · simp only [List.length_cons, List.take_succ_cons]
          exact List.cons_prefix_cons.mpr ⟨rfl, h2⟩
      | exhausted =>
        obtain ⟨ext, h1, h2⟩ := ih (i + 1) ⟨rest, nrQ, exQ ++ [b], offs ++ [b]⟩
        refine ⟨b :: ext, ?_, ?_⟩
        · have he : innerLoop oracle i (n + 1) ⟨b :: rest, nrQ, exQ, offs⟩ =
              innerLoop oracle (i + 1) n ⟨rest, nrQ, exQ ++ [b], offs ++ [b]⟩ := by
            simp [innerLoop, ho]
          rw [he, h1]
          simp
        · simp only [List.length_cons, List.take_succ_cons]
          exact List.cons_prefix_cons.mpr ⟨rfl, h2⟩
      | started locked =>
        cases locked with
        | true =>
          refine ⟨[b], ?_, ?_⟩
          · have he : innerLoop oracle i (n + 1) ⟨b :: rest, nrQ, exQ, offs⟩ =
                ⟨rest ++ [b], nrQ, exQ, offs ++ [b]⟩ := by
              simp [innerLoop, ho]
            rw [he]
          · rw [List.take_of_length_le (by simp)]
            exact List.cons_prefix_cons.mpr ⟨rfl, List.nil_prefix⟩
        | false =>
          obtain ⟨ext, h1, h2⟩ := ih (i + 1) ⟨rest ++ [b], nrQ, exQ, offs ++ [b]⟩
          refine ⟨b :: ext, ?_, ?_⟩
          · have he : innerLoop oracle i (n + 1) ⟨b :: rest, nrQ, exQ, offs⟩ =
                innerLoop oracle (i + 1) n ⟨rest ++ [b], nrQ, exQ, offs ++ [b]⟩ := by
              simp [innerLoop, ho]
            rw [he, h1]
            simp
          · have h2' : ext.take (rest.length + 1) <+: rest ++ [b] := by
              simpa using h2
            have h3 := take_isPrefix_of_isPrefix_append _ rest b h2'
            rw [List.take_take, Nat.min_eq_left (Nat.le_succ _)] at h3
            simp only [List.length_cons, List.take_succ_cons]
            exact List.cons_prefix_cons.mpr ⟨rfl, h3⟩

/-- C6: within a single pass of the round-robin distribution over an
initial active deque `d` (of distinct boostables), every member of `d` is
offered a boost at least once before any boostable is offered a second
time: if position `j` of the offer trace repeats an earlier offer, the
whole of `d` already appears among the first `j` offers. -/
theorem round_robin_fair {β : Type} (oracle : Nat → InnerOutcome) (fuel : Nat)
    (d : List β) (hd : d.Nodup) (b : β) (i j : Nat) (hij : i < j)
    (hi : (innerLoop oracle 0 fuel ⟨d, [], [], []⟩).offers[i]? = some b)
    (hj : (innerLoop oracle 0 fuel ⟨d, [], [], []⟩).offers[j]? = some b)
    (x : β) (hx : x ∈ d) :
    x ∈ (innerLoop oracle 0 fuel ⟨d, [], [], []⟩).offers.take j := by
  obtain ⟨ext, h1, h2⟩ := innerLoop_offers_extend oracle fuel 0 ⟨d, [], [], []⟩
  simp only [List.nil_append] at h1
  rw [h1] at hi hj ⊢
  have hjlen : j < ext.length := (List.getElem?_eq_some.mp hj).1
  have hkj : d.length ≤ j := by
    by_contra hjk
    push_neg at hjk
    have hik : i < d.length := lt_trans hij hjk
    have hti : (ext.take d.length)[i]? = some b := by
      rw [List.getElem?_take]
      simpa [hik] using hi
    have htj : (ext.take d.length)[j]? = some b := by
      rw [List.getElem?_take]
      simpa [hjk] using hj
    have hnd : (ext.take d.length).Nodup := hd.sublist h2.sublist
    have hilen : i < (ext.take d.length).length := by
      rw [List.length_take]
      exact lt_min hik (lt_trans hij hjlen)
    exact absurd (List.getElem?_inj hilen hnd (hti.trans htj.symm)) (Nat.ne_of_lt hij)
  have hfull : ext.take d.length = d := by
    apply h2.eq_of_length
    rw [List.length_take]
    exact Nat.min_eq_left (le_of_lt (lt_of_le_of_lt hkj hjlen))
  have hpre : ext.take d.length <+: ext.take j := by
    have := List.take_prefix d.length (ext.take j)
    rwa [List.take_take, Nat.min_eq_left hkj] at this
  refine hpre.subset ?_
  rw [hfull]
  exact hx

theorem round_robin_fair_witness :
    (2 : Nat) ∈
      (innerLoop (fun _ => InnerOutcome.started false) 0 5
        ⟨[0, 1, 2], [], [], []⟩).offers.take 3 :=
  round_robin_fair (fun _ => InnerOutcome.started false) 5 [0, 1, 2]
    (by decide) 0 0 3 (by decide) (by decide) (by decide) 2 (by decide)

end BoostedBlob
